import Mathlib

/-!
Verification of the blocksecure-chain core against its specification.

Two components are embedded shallowly:

* the `SecurityOracle` Solidity contract (on-chain security ledger): state,
  role checks, pausing, the vulnerability lifecycle, audit-report history,
  blacklisting and the safety query;
* the TypeScript analyzer package: the Slither and Mythril engine adapters
  and the aggregating `VulnerabilityAnalyzer` (`analyzeContract`,
  `getCombinedAnalysis`).

Solidity mappings with a companion counter become lists (ids are assigned
sequentially), mappings to booleans become membership lists, and the
address-to-history mapping becomes an association list.  Reverting
operations return `Except`; an operation wrapper `applyOp` makes the
revert-leaves-state-unchanged reading explicit.  Wall-clock times
(`block.timestamp`, `Date.now`) are passed in or fixed to zero; they carry
no logic.
-/

namespace SecurityOracle

/-- Contract addresses; `0` models `address(0)`. -/
abbrev Address := Nat

/-- Solidity `enum VulnerabilityType` of `SecurityOracle`. -/
inductive VulnerabilityType
  | REENTRANCY
  | INTEGER_OVERFLOW
  | ACCESS_CONTROL
  | FRONT_RUNNING
  | TIMESTAMP_DEPENDENCY
  | UNCHECKED_CALL
  | DELEGATECALL
  | TX_ORIGIN
deriving DecidableEq, Repr

/-- Solidity `enum Severity` of `SecurityOracle`. -/
inductive Severity
  | LOW
  | MEDIUM
  | HIGH
  | CRITICAL
deriving DecidableEq, Repr

/-- Solidity `struct Vulnerability`. -/
structure Vulnerability where
  contractAddress : Address
  vulnType : VulnerabilityType
  severity : Severity
  description : String
  timestamp : Nat
  reporter : Address
  verified : Bool
  resolved : Bool
deriving DecidableEq, Repr

/-- Solidity `struct AuditReport`. -/
structure AuditReport where
  contractAddress : Address
  totalVulnerabilities : Nat
  criticalCount : Nat
  highCount : Nat
  mediumCount : Nat
  lowCount : Nat
  isSecure : Bool
  timestamp : Nat
  auditor : Address
deriving DecidableEq, Repr

/-- Storage of the `SecurityOracle` contract.  The `vulnerabilities` mapping
plus `vulnerabilityCount` become one list (ids are handed out sequentially,
so id `i` is index `i`); the boolean `blacklistedContracts` mapping becomes a
membership list; the per-address `auditReports` mapping becomes an
association list.  The three OpenZeppelin role sets are carried as member
lists. -/
structure OracleState where
  admins : List Address
  auditors : List Address
  reporters : List Address
  vulnerabilities : List Vulnerability
  auditReports : List (Address × List AuditReport)
  blacklistedContracts : List Address
  paused : Bool
deriving DecidableEq, Repr

/-- `vulnerabilityCount` public counter. -/
def vulnerabilityCount (s : OracleState) : Nat :=
  s.vulnerabilities.length

/-- Reading the `auditReports` mapping (missing key is the empty array). -/
def getAuditReports (s : OracleState) (a : Address) : List AuditReport :=
  (s.auditReports.lookup a).getD []

/-- Writing `auditReports[a].push r`. -/
def pushAuditReport (l : List (Address × List AuditReport)) (a : Address)
    (r : AuditReport) : List (Address × List AuditReport) :=
  if l.any (fun p => p.1 = a) then
    l.map (fun p => if p.1 = a then (p.1, p.2 ++ [r]) else p)
  else
    l ++ [(a, [r])]

/-- Setting `blacklistedContracts[a] = true` on the membership list. -/
def blacklistInsert (l : List Address) (a : Address) : List Address :=
  if a ∈ l then l else a :: l

/-- Revert reasons of the contract (`require` messages and the OpenZeppelin
modifier errors).  `InvalidVulnerabilityId` is the "Invalid vulnerability ID"
require, i.e. the NotFound case of the spec; `NotVerified` is the
"Not verified" require, i.e. the NotYetVerified case of the spec. -/
inductive OracleError
  | Unauthorized
  | SystemPaused
  | InvalidContractAddress
  | DescriptionRequired
  | InvalidVulnerabilityId
  | AlreadyVerified
  | NotVerified
  | AlreadyResolved
  | NoAuditReports
  | ArithmeticOverflow
  | AlreadyPaused
  | NotPaused
deriving DecidableEq, Repr

/-- Bound of `uint256` arithmetic (Solidity 0.8 reverts on overflow). -/
def UINT256 : Nat := 2 ^ 256

/-- Internal `_blacklistContract` (the `reason` argument only feeds the
event, which is not modelled). -/
def blacklistContractInternal (s : OracleState) (a : Address) : OracleState :=
  { s with blacklistedContracts := blacklistInsert s.blacklistedContracts a }

/-- `reportVulnerability`.  Modifier order is the source order: `onlyRole`
then `whenNotPaused`, then the two requires. -/
def reportVulnerability (s : OracleState) (caller : Address) (addr : Address)
    (t : VulnerabilityType) (sev : Severity) (desc : String) (ts : Nat) :
    Except OracleError (Nat × OracleState) :=
  if caller ∉ s.reporters then .error .Unauthorized
  else if s.paused then .error .SystemPaused
  else if addr = 0 then .error .InvalidContractAddress
  else if desc.length = 0 then .error .DescriptionRequired
  else
    let vulnId := s.vulnerabilities.length
    let v : Vulnerability :=
      { contractAddress := addr, vulnType := t, severity := sev,
        description := desc, timestamp := ts, reporter := caller,
        verified := false, resolved := false }
    let s1 := { s with vulnerabilities := s.vulnerabilities ++ [v] }
    if sev = .CRITICAL then .ok (vulnId, blacklistContractInternal s1 addr)
    else .ok (vulnId, s1)

/-- `verifyVulnerability`.  The `_vulnId < vulnerabilityCount` require is
exactly the index lookup succeeding. -/
def verifyVulnerability (s : OracleState) (caller : Address) (vulnId : Nat) :
    Except OracleError OracleState :=
  if caller ∉ s.auditors then .error .Unauthorized
  else
    match s.vulnerabilities[vulnId]? with
    | none => .error .InvalidVulnerabilityId
    | some v =>
      if v.verified then .error .AlreadyVerified
      else .ok { s with
        vulnerabilities := s.vulnerabilities.set vulnId { v with verified := true } }

/-- `resolveVulnerability`. -/
def resolveVulnerability (s : OracleState) (caller : Address) (vulnId : Nat) :
    Except OracleError OracleState :=
  if caller ∉ s.auditors then .error .Unauthorized
  else
    match s.vulnerabilities[vulnId]? with
    | none => .error .InvalidVulnerabilityId
    | some v =>
      if !v.verified then .error .NotVerified
      else if v.resolved then .error .AlreadyResolved
      else .ok { s with
        vulnerabilities := s.vulnerabilities.set vulnId { v with resolved := true } }

/-- `submitAuditReport`.  `onlyRole(AUDITOR_ROLE)` then `whenNotPaused`, then
the address require; the checked `uint256` sum reverts on overflow. -/
def submitAuditReport (s : OracleState) (caller : Address) (addr : Address)
    (c h m l ts : Nat) : Except OracleError OracleState :=
  if caller ∉ s.auditors then .error .Unauthorized
  else if s.paused then .error .SystemPaused
  else if addr = 0 then .error .InvalidContractAddress
  else if UINT256 ≤ c + h + m + l then .error .ArithmeticOverflow
  else
    let report : AuditReport :=
      { contractAddress := addr, totalVulnerabilities := c + h + m + l,
        criticalCount := c, highCount := h, mediumCount := m, lowCount := l,
        isSecure := c == 0 && h == 0, timestamp := ts, auditor := caller }
    let s1 := { s with auditReports := pushAuditReport s.auditReports addr report }
    if 0 < c then .ok (blacklistContractInternal s1 addr) else .ok s1

/-- `isContractSafe` view. -/
def isContractSafe (s : OracleState) (addr : Address) : Bool :=
  if addr ∈ s.blacklistedContracts then false
  else
    match (getAuditReports s addr).getLast? with
    | none => false
    | some r => r.isSecure

/-- `getContractVulnerabilities` view (the two-pass loop over all ids keeps
exactly the ids whose record targets `addr`, in increasing order). -/
def getContractVulnerabilities (s : OracleState) (addr : Address) : List Nat :=
  (List.range s.vulnerabilities.length).filter
    (fun i =>
      match s.vulnerabilities[i]? with
      | some v => v.contractAddress = addr
      | none => false)

/-- `getLatestAuditReport` view (reverts when the history is empty). -/
def getLatestAuditReport (s : OracleState) (addr : Address) :
    Except OracleError AuditReport :=
  match (getAuditReports s addr).getLast? with
  | none => .error .NoAuditReports
  | some r => .ok r

/-- External `blacklistContract` (auditor role). -/
def blacklistContract (s : OracleState) (caller : Address) (addr : Address) :
    Except OracleError OracleState :=
  if caller ∉ s.auditors then .error .Unauthorized
  else .ok (blacklistContractInternal s addr)

/-- `whitelistContract` (admin role): sets the mapping entry back to false. -/
def whitelistContract (s : OracleState) (caller : Address) (addr : Address) :
    Except OracleError OracleState :=
  if caller ∉ s.admins then .error .Unauthorized
  else .ok { s with
    blacklistedContracts := s.blacklistedContracts.filter (fun x => x ≠ addr) }

/-- `pause` (admin role; OpenZeppelin `_pause` reverts when already paused). -/
def pause (s : OracleState) (caller : Address) : Except OracleError OracleState :=
  if caller ∉ s.admins then .error .Unauthorized
  else if s.paused then .error .AlreadyPaused
  else .ok { s with paused := true }

/-- `unpause` (admin role; `_unpause` reverts when not paused). -/
def unpause (s : OracleState) (caller : Address) : Except OracleError OracleState :=
  if caller ∉ s.admins then .error .Unauthorized
  else if !s.paused then .error .NotPaused
  else .ok { s with paused := false }

/-- One external transaction against the oracle. -/
inductive Op
  | report (caller addr : Address) (t : VulnerabilityType) (sev : Severity)
      (desc : String) (ts : Nat)
  | verify (caller : Address) (vulnId : Nat)
  | resolve (caller : Address) (vulnId : Nat)
  | submitAudit (caller addr c h m l ts : Nat)
  | blacklist (caller addr : Address)
  | whitelist (caller addr : Address)
  | pauseOp (caller : Address)
  | unpauseOp (caller : Address)
deriving DecidableEq, Repr

/-- EVM transaction semantics: a reverting call leaves the state unchanged
and surfaces its revert reason. -/
def applyOp (op : Op) (s : OracleState) : OracleState × Option OracleError :=
  match op with
  | .report caller addr t sev desc ts =>
    match reportVulnerability s caller addr t sev desc ts with
    | .ok (_, s1) => (s1, none)
    | .error e => (s, some e)
  | .verify caller vulnId =>
    match verifyVulnerability s caller vulnId with
    | .ok s1 => (s1, none)
    | .error e => (s, some e)
  | .resolve caller vulnId =>
    match resolveVulnerability s caller vulnId with
    | .ok s1 => (s1, none)
    | .error e => (s, some e)
  | .submitAudit caller addr c h m l ts =>
    match submitAuditReport s caller addr c h m l ts with
    | .ok s1 => (s1, none)
    | .error e => (s, some e)
  | .blacklist caller addr =>
    match blacklistContract s caller addr with
    | .ok s1 => (s1, none)
    | .error e => (s, some e)
  | .whitelist caller addr =>
    match whitelistContract s caller addr with
    | .ok s1 => (s1, none)
    | .error e => (s, some e)
  | .pauseOp caller =>
    match pause s caller with
    | .ok s1 => (s1, none)
    | .error e => (s, some e)
  | .unpauseOp caller =>
    match unpause s caller with
    | .ok s1 => (s1, none)
    | .error e => (s, some e)

/-- Running a sequence of transactions (reverted calls are kept in the trace
but do not change state). -/
def runOps (ops : List Op) (s : OracleState) : OracleState :=
  ops.foldl (fun t op => (applyOp op t).1) s

end SecurityOracle

namespace Analyzer

/-- TypeScript `enum VulnerabilityType` of `packages/analyzer/src/types`. -/
inductive VulnerabilityType
  | REENTRANCY
  | INTEGER_OVERFLOW
  | INTEGER_UNDERFLOW
  | ACCESS_CONTROL
  | FRONT_RUNNING
  | TIMESTAMP_DEPENDENCY
  | UNCHECKED_CALL
  | DELEGATECALL
  | TX_ORIGIN
  | UNINITIALIZED_STORAGE
  | DENIAL_OF_SERVICE
  | WEAK_RANDOMNESS
deriving DecidableEq, Repr

/-- The string value of each `VulnerabilityType` enum member (the TS enum is
string-valued; template interpolation of a member yields this string). -/
def VulnerabilityType.toString : VulnerabilityType → String
  | .REENTRANCY => "REENTRANCY"
  | .INTEGER_OVERFLOW => "INTEGER_OVERFLOW"
  | .INTEGER_UNDERFLOW => "INTEGER_UNDERFLOW"
  | .ACCESS_CONTROL => "ACCESS_CONTROL"
  | .FRONT_RUNNING => "FRONT_RUNNING"
  | .TIMESTAMP_DEPENDENCY => "TIMESTAMP_DEPENDENCY"
  | .UNCHECKED_CALL => "UNCHECKED_CALL"
  | .DELEGATECALL => "DELEGATECALL"
  | .TX_ORIGIN => "TX_ORIGIN"
  | .UNINITIALIZED_STORAGE => "UNINITIALIZED_STORAGE"
  | .DENIAL_OF_SERVICE => "DENIAL_OF_SERVICE"
  | .WEAK_RANDOMNESS => "WEAK_RANDOMNESS"

/-- TypeScript `enum Severity` of the analyzer package. -/
inductive Severity
  | LOW
  | MEDIUM
  | HIGH
  | CRITICAL
  | INFORMATIONAL
deriving DecidableEq, Repr

/-- TS `interface Vulnerability` (one normalized finding).  The unused
optional `column`/`code` fields are dropped; `recommendation` and
`references` are always set by both adapters, so they are plain fields. -/
structure Vulnerability where
  type : VulnerabilityType
  severity : Severity
  title : String
  description : String
  file : Option String
  line : Option Nat
  recommendation : String
  references : List String
deriving DecidableEq, Repr

/-- The per-severity summary object of `AnalysisResult`. -/
structure Summary where
  total : Nat
  critical : Nat
  high : Nat
  medium : Nat
  low : Nat
  informational : Nat
deriving DecidableEq, Repr

/-- TS `interface AnalysisResult`.  The wall-clock `timestamp` field is not
modelled; `executionTime` is kept as data but fixed to zero by the adapters
(timing carries no logic). -/
structure AnalysisResult where
  contractPath : String
  contractName : String
  analyzer : String
  vulnerabilities : List Vulnerability
  summary : Summary
  isSecure : Bool
  executionTime : Nat
deriving DecidableEq, Repr

/-- TS `interface AnalyzerConfig`; an absent config object is the default
value (absent `excludeInformational` is falsy). -/
structure AnalyzerConfig where
  timeout : Option Nat := none
  excludeInformational : Bool := false
  detectors : List String := []
deriving Repr

/-- `calculateSummary` (identical private helper of both adapters). -/
def calculateSummary (vulnerabilities : List Vulnerability) : Summary :=
  { total := vulnerabilities.length,
    critical := (vulnerabilities.filter (fun v => v.severity = .CRITICAL)).length,
    high := (vulnerabilities.filter (fun v => v.severity = .HIGH)).length,
    medium := (vulnerabilities.filter (fun v => v.severity = .MEDIUM)).length,
    low := (vulnerabilities.filter (fun v => v.severity = .LOW)).length,
    informational := (vulnerabilities.filter (fun v => v.severity = .INFORMATIONAL)).length }

/-- JS `a || b` on strings: the left operand unless it is absent or empty
(the empty string is falsy). -/
def orElseStr (x : Option String) (fallback : String) : String :=
  match x with
  | some r => if r = "" then fallback else r
  | none => fallback

/-- JS `String.prototype.replace` with a plain-string pattern replaces only
the first occurrence. -/
def replaceFirst (s pat rep : String) : String :=
  match s.splitOn pat with
  | [] => s
  | [t] => t
  | t :: ts => t ++ rep ++ String.intercalate pat ts

/-- `extractContractName` (identical private helper of both adapters):
split the path on `/` and the backslash, take the last part, strip `.sol`. -/
def extractContractName (path : String) : String :=
  let parts := (path.splitOn "/").flatMap (fun s => s.splitOn "\\")
  let filename := (parts.getLast?).getD ""
  replaceFirst filename ".sol" ""

/-- Outcome of the promisified `exec` call of an adapter, after JSON
parsing.  `success parsed` is a zero exit code, with `parsed = some out`
when the captured stdout is valid JSON of the engine schema and `none` when
`JSON.parse` throws.  `failure stdout` is a non-zero exit, timeout or crash:
the outer option is whether the thrown error carries a (truthy) `stdout`
capture, the inner option whether that capture parses. -/
inductive ExecOutcome (α : Type)
  | success (parsed : Option α)
  | failure (stdout : Option (Option α))

/-- Slither JSON: `source_mapping` of the first element of a detector. -/
structure SourceMapping where
  filename_relative : String
  lines : List Nat
deriving DecidableEq, Repr

/-- Slither JSON: one element of `detector.elements`. -/
structure SlitherElement where
  source_mapping : Option SourceMapping
deriving DecidableEq, Repr

/-- Slither JSON: one entry of `output.results.detectors`. -/
structure SlitherDetector where
  check : String
  impact : String
  description : String
  recommendation : Option String
  wiki_url : Option String
  elements : List SlitherElement
deriving DecidableEq, Repr

/-- Slither JSON: the `results` object. -/
structure SlitherResults where
  detectors : Option (List SlitherDetector)
deriving DecidableEq, Repr

/-- Slither JSON: the whole parsed stdout. -/
structure SlitherOutput where
  results : Option SlitherResults
deriving DecidableEq, Repr

/-- `mapDetectorToType` lookup table of `SlitherAnalyzer`. -/
def slitherDetectorMap : List (String × VulnerabilityType) :=
  [("reentrancy-eth", .REENTRANCY),
   ("reentrancy-no-eth", .REENTRANCY),
   ("reentrancy-benign", .REENTRANCY),
   ("controlled-delegatecall", .DELEGATECALL),
   ("tx-origin", .TX_ORIGIN),
   ("timestamp", .TIMESTAMP_DEPENDENCY),
   ("unchecked-lowlevel", .UNCHECKED_CALL),
   ("unchecked-send", .UNCHECKED_CALL),
   ("suicidal", .ACCESS_CONTROL),
   ("arbitrary-send", .ACCESS_CONTROL),
   ("uninitialized-storage", .UNINITIALIZED_STORAGE),
   ("weak-prng", .WEAK_RANDOMNESS)]

/-- `mapDetectorToType` of `SlitherAnalyzer`. -/
def mapDetectorToType (detector : String) : VulnerabilityType :=
  (slitherDetectorMap.lookup detector).getD .ACCESS_CONTROL

/-- `mapSeverity` of `SlitherAnalyzer`. -/
def slitherMapSeverity (impact : String) : Severity :=
  (([("High", Severity.CRITICAL),
     ("Medium", Severity.HIGH),
     ("Low", Severity.MEDIUM),
     ("Informational", Severity.INFORMATIONAL),
     ("Optimization", Severity.INFORMATIONAL)] :
      List (String × Severity)).lookup impact).getD .LOW

/-- `getRecommendation` of `SlitherAnalyzer`. -/
def slitherGetRecommendation (detector : String) : String :=
  (([("reentrancy-eth", "Use the Checks-Effects-Interactions pattern or ReentrancyGuard from OpenZeppelin"),
     ("controlled-delegatecall", "Avoid using delegatecall with user-controlled addresses"),
     ("tx-origin", "Use msg.sender instead of tx.origin for authorization"),
     ("timestamp", "Avoid using block.timestamp for critical logic; use block.number if needed"),
     ("unchecked-lowlevel", "Always check the return value of low-level calls"),
     ("suicidal", "Implement proper access control for selfdestruct"),
     ("weak-prng", "Use Chainlink VRF or similar oracle for secure randomness")] :
      List (String × String)).lookup detector).getD "Review and fix the detected issue"

/-- `parseSlitherOutput` of `SlitherAnalyzer`. -/
def parseSlitherOutput (output : SlitherOutput) : List Vulnerability :=
  match output.results with
  | none => []
  | some res =>
    match res.detectors with
    | none => []
    | some detectors =>
      detectors.map (fun detector =>
        let base : Vulnerability :=
          { type := mapDetectorToType detector.check,
            severity := slitherMapSeverity detector.impact,
            title := detector.check,
            description := detector.description,
            file := none,
            line := none,
            recommendation :=
              orElseStr detector.recommendation (slitherGetRecommendation detector.check),
            references :=
              match detector.wiki_url with
              | some u => if u = "" then [] else [u]
              | none => [] }
        match detector.elements.head? with
        | some el =>
          match el.source_mapping with
          | some sm =>
            { base with file := some sm.filename_relative, line := sm.lines.head? }
          | none => base
        | none => base)

/-- The `AnalysisResult` the Slither adapter returns on a successful parse
(the body of the `try` block after `JSON.parse` succeeded).  The summary is
computed before the `excludeInformational` filter is applied to the
returned findings. -/
def slitherBuildResult (out : SlitherOutput) (contractPath : String)
    (config : AnalyzerConfig) : AnalysisResult :=
  let vulnerabilities := parseSlitherOutput out
  let summary := calculateSummary vulnerabilities
  { contractPath := contractPath,
    contractName := extractContractName contractPath,
    analyzer := "Slither",
    vulnerabilities :=
      if config.excludeInformational then
        vulnerabilities.filter (fun v => v.severity ≠ .INFORMATIONAL)
      else vulnerabilities,
    summary := summary,
    isSecure := summary.critical == 0 && summary.high == 0,
    executionTime := 0 }

/-- `SlitherAnalyzer.analyze`.  Any `exec` failure (non-zero exit, timeout)
and any `JSON.parse` failure land in the same `catch`, which rethrows
unconditionally (the interpolated subprocess message is not modelled). -/
def slitherAnalyze (available : Bool) (outcome : ExecOutcome SlitherOutput)
    (contractPath : String) (config : AnalyzerConfig) :
    Except String AnalysisResult :=
  if !available then
    .error "Slither is not installed. Install with: pip3 install slither-analyzer"
  else
    match outcome with
    | .success (some out) => .ok (slitherBuildResult out contractPath config)
    | .success none => .error "Slither analysis failed"
    | .failure _ => .error "Slither analysis failed"

/-- Mythril JSON: `issue.sourceMap`; `start` holds `parseInt(sourceMap.start)`
when `sourceMap.start` is present and truthy. -/
structure MythrilSourceMap where
  file : Option String
  start : Option Nat
deriving DecidableEq, Repr

/-- Mythril JSON: one entry of `output.issues`; `description_head` models
`issue.description.head` when the description is an object with a truthy
`head`, and the plain string otherwise. -/
structure MythrilIssue where
  swcID : String
  title : String
  description_head : Option String
  description : String
  severity : String
  sourceMap : Option MythrilSourceMap
deriving DecidableEq, Repr

/-- Mythril JSON: the whole parsed stdout (`issues` must be an array). -/
structure MythrilOutput where
  issues : Option (List MythrilIssue)
deriving DecidableEq, Repr

/-- The SWC-id table of `mapIssueToType` of `MythrilAnalyzer`.  The source
writes `VulnerabilityType.DOS` for SWC 113, a member absent from the enum;
it is modelled as `DENIAL_OF_SERVICE`, the member the comment names. -/
def mythrilSwcMap : List (String × VulnerabilityType) :=
  [("107", .REENTRANCY),
   ("116", .TIMESTAMP_DEPENDENCY),
   ("115", .TX_ORIGIN),
   ("112", .DELEGATECALL),
   ("105", .ACCESS_CONTROL),
   ("106", .ACCESS_CONTROL),
   ("101", .INTEGER_OVERFLOW),
   ("113", .DENIAL_OF_SERVICE),
   ("114", .TX_ORIGIN),
   ("120", .WEAK_RANDOMNESS),
   ("104", .UNCHECKED_CALL)]

/-- JS `String.prototype.includes` for a non-empty pattern. -/
def containsSubstr (s pat : String) : Bool :=
  (s.splitOn pat).length != 1

/-- `mapIssueToType` of `MythrilAnalyzer`: SWC id first, then the
lower-cased title keywords, then the `ACCESS_CONTROL` default. -/
def mapIssueToType (swcID title : String) : VulnerabilityType :=
  match (if swcID ≠ "" then mythrilSwcMap.lookup swcID else none) with
  | some t => t
  | none =>
    let titleLower := title.toLower
    if containsSubstr titleLower "reentrancy" then .REENTRANCY
    else if containsSubstr titleLower "timestamp" then .TIMESTAMP_DEPENDENCY
    else if containsSubstr titleLower "tx.origin" then .TX_ORIGIN
    else if containsSubstr titleLower "delegatecall" then .DELEGATECALL
    else if containsSubstr titleLower "overflow" || containsSubstr titleLower "underflow" then
      .INTEGER_OVERFLOW
    else if containsSubstr titleLower "access control" then .ACCESS_CONTROL
    else if containsSubstr titleLower "randomness" then .WEAK_RANDOMNESS
    else .ACCESS_CONTROL

/-- `mapSeverity` of `MythrilAnalyzer` (keys are the lower-cased labels). -/
def mythrilMapSeverity (severity : String) : Severity :=
  (([("high", Severity.CRITICAL),
     ("medium", Severity.HIGH),
     ("low", Severity.MEDIUM),
     ("informational", Severity.INFORMATIONAL)] :
      List (String × Severity)).lookup severity.toLower).getD .LOW

/-- `getRecommendation` of `MythrilAnalyzer`. -/
def mythrilGetRecommendation (swcID : String) : String :=
  (([("107", "Use the Checks-Effects-Interactions pattern and consider using ReentrancyGuard"),
     ("116", "Avoid using block.timestamp for critical logic. Use block.number where appropriate"),
     ("115", "Use msg.sender instead of tx.origin for authorization checks"),
     ("112", "Avoid delegatecall to untrusted contracts. Implement strict access controls"),
     ("105", "Implement proper access control mechanisms for withdrawal functions"),
     ("106", "Restrict access to selfdestruct using access control modifiers"),
     ("101", "Use SafeMath library or Solidity 0.8+ built-in overflow protection"),
     ("113", "Handle failed calls properly and avoid state changes after external calls"),
     ("114", "Minimize reliance on transaction ordering. Consider commit-reveal schemes"),
     ("120", "Use Chainlink VRF or similar oracle for secure on-chain randomness"),
     ("104", "Always check return values of low-level calls (call, delegatecall, staticcall)")] :
      List (String × String)).lookup swcID).getD
    "Review the vulnerability and apply appropriate security measures"

/-- `parseMythrilOutput` of `MythrilAnalyzer`. -/
def parseMythrilOutput (output : MythrilOutput) (contractPath : String) :
    List Vulnerability :=
  match output.issues with
  | none => []
  | some issues =>
    issues.map (fun issue =>
      let base : Vulnerability :=
        { type := mapIssueToType issue.swcID issue.title,
          severity := mythrilMapSeverity issue.severity,
          title := issue.title,
          description := orElseStr issue.description_head issue.description,
          file := none,
          line := none,
          recommendation := mythrilGetRecommendation issue.swcID,
          references :=
            if issue.swcID ≠ "" then
              ["https://swcregistry.io/docs/SWC-" ++ issue.swcID]
            else [] }
      match issue.sourceMap with
      | some sm =>
        { base with
          file := some (orElseStr sm.file contractPath),
          line := sm.start }
      | none => base)

/-- The `AnalysisResult` the Mythril adapter returns from a parsed output
(identical code in the `try` block and in the `error.stdout` recovery
branch).  The summary is computed before the `excludeInformational` filter
is applied to the returned findings. -/
def mythrilBuildResult (out : MythrilOutput) (contractPath : String)
    (config : AnalyzerConfig) : AnalysisResult :=
  let vulnerabilities := parseMythrilOutput out contractPath
  let summary := calculateSummary vulnerabilities
  { contractPath := contractPath,
    contractName := extractContractName contractPath,
    analyzer := "Mythril",
    vulnerabilities :=
      if config.excludeInformational then
        vulnerabilities.filter (fun v => v.severity ≠ .INFORMATIONAL)
      else vulnerabilities,
    summary := summary,
    isSecure := summary.critical == 0 && summary.high == 0,
    executionTime := 0 }

/-- `MythrilAnalyzer.analyze`.  Unlike Slither, its `catch` inspects
`error.stdout` and, when that parses, returns the parsed result. -/
def mythrilAnalyze (available : Bool) (outcome : ExecOutcome MythrilOutput)
    (contractPath : String) (config : AnalyzerConfig) :
    Except String AnalysisResult :=
  if !available then
    .error "Mythril is not installed. Install with: pip3 install mythril"
  else
    match outcome with
    | .success (some out) => .ok (mythrilBuildResult out contractPath config)
    | .success none => .error "Mythril analysis failed"
    | .failure (some (some out)) => .ok (mythrilBuildResult out contractPath config)
    | .failure (some none) => .error "Mythril analysis failed"
    | .failure none => .error "Mythril analysis failed"

/-- The error `VulnerabilityAnalyzer.analyzeContract` throws when no result
was collected. -/
def noAnalyzersMsg : String :=
  "No analyzers available. Please install Slither (pip3 install slither-analyzer) or Mythril (pip3 install mythril)"

/-- `VulnerabilityAnalyzer.analyzeContract`: run Slither if available, then
Mythril if available, collecting successes in order and recording the error
string of each engine that was available but failed (the `console.error`
log); throw `noAnalyzersMsg` when nothing was collected. -/
def analyzeContract (contractPath : String)
    (slitherAvailable : Bool) (slitherOutcome : ExecOutcome SlitherOutput)
    (mythrilAvailable : Bool) (mythrilOutcome : ExecOutcome MythrilOutput)
    (config : AnalyzerConfig) :
    Except String (List AnalysisResult × List String) :=
  let slitherPart : List AnalysisResult × List String :=
    if slitherAvailable then
      match slitherAnalyze slitherAvailable slitherOutcome contractPath config with
      | .ok r => ([r], [])
      | .error e => ([], [e])
    else ([], [])
  let mythrilPart : List AnalysisResult × List String :=
    if mythrilAvailable then
      match mythrilAnalyze mythrilAvailable mythrilOutcome contractPath config with
      | .ok r => ([r], [])
      | .error e => ([], [e])
    else ([], [])
  let results := slitherPart.1 ++ mythrilPart.1
  if results.isEmpty then .error noAnalyzersMsg
  else .ok (results, slitherPart.2 ++ mythrilPart.2)

/-- The dedup key of `getCombinedAnalysis`: the template string built from
the (string-valued) type enum member and the description. -/
def dedupKey (v : Vulnerability) : String :=
  v.type.toString ++ "-" ++ v.description

/-- One `Map.prototype.set` step of the JS `new Map(entries)` constructor:
an existing key keeps its position but its value is overwritten; a new key
is appended. -/
def mapInsert (acc : List (String × Vulnerability))
    (kv : String × Vulnerability) : List (String × Vulnerability) :=
  if acc.any (fun p => p.1 = kv.1) then
    acc.map (fun p => if p.1 = kv.1 then (p.1, kv.2) else p)
  else acc ++ [kv]

/-- JS `Array.from(new Map(entries).values())`. -/
def jsMapValues (entries : List (String × Vulnerability)) : List Vulnerability :=
  (entries.foldl mapInsert []).map Prod.snd

/-- The combine step of `VulnerabilityAnalyzer.getCombinedAnalysis` (the
code after the `analyzeContract` call): concatenate findings, deduplicate
through a JS `Map` keyed by type and description, recompute the summary and
verdict over the deduplicated list, sum execution times. -/
def combineResults (contractPath : String) (results : List AnalysisResult) :
    AnalysisResult :=
  let allVulnerabilities := results.flatMap (fun r => r.vulnerabilities)
  let uniqueVulnerabilities :=
    jsMapValues (allVulnerabilities.map (fun v => (dedupKey v, v)))
  let summary : Summary :=
    { total := uniqueVulnerabilities.length,
      critical := (uniqueVulnerabilities.filter (fun v => v.severity = .CRITICAL)).length,
      high := (uniqueVulnerabilities.filter (fun v => v.severity = .HIGH)).length,
      medium := (uniqueVulnerabilities.filter (fun v => v.severity = .MEDIUM)).length,
      low := (uniqueVulnerabilities.filter (fun v => v.severity = .LOW)).length,
      informational := (uniqueVulnerabilities.filter (fun v => v.severity = .INFORMATIONAL)).length }
  { contractPath := contractPath,
    contractName := ((results.head?).map (fun r => r.contractName)).getD "",
    analyzer := "Combined",
    vulnerabilities := uniqueVulnerabilities,
    summary := summary,
    isSecure := summary.critical == 0 && summary.high == 0,
    executionTime := results.foldl (fun acc r => acc + r.executionTime) 0 }

/-- `VulnerabilityAnalyzer.getCombinedAnalysis`. -/
def getCombinedAnalysis (contractPath : String)
    (slitherAvailable : Bool) (slitherOutcome : ExecOutcome SlitherOutput)
    (mythrilAvailable : Bool) (mythrilOutcome : ExecOutcome MythrilOutput)
    (config : AnalyzerConfig) :
    Except String (AnalysisResult × List String) :=
  match analyzeContract contractPath slitherAvailable slitherOutcome
      mythrilAvailable mythrilOutcome config with
  | .error e => .error e
  | .ok (results, failures) => .ok (combineResults contractPath results, failures)

end Analyzer

namespace SecurityOracle

/-- A freshly deployed oracle: the deployer (address 1) holds all three
roles, as granted by the constructor. -/
def sampleState : OracleState :=
  { admins := [1], auditors := [1], reporters := [1], vulnerabilities := [],
    auditReports := [], blacklistedContracts := [], paused := false }

/-- The deployed oracle after an admin `pause`. -/
def pausedState : OracleState := { sampleState with paused := true }

/-- The deployed oracle with contract 5 blacklisted. -/
def blacklistedState : OracleState :=
  { sampleState with blacklistedContracts := [5] }

/-- A stored vulnerability record against contract 7 with the given
lifecycle flags. -/
def vulnEx (verified resolved : Bool) : Vulnerability :=
  { contractAddress := 7, vulnType := .REENTRANCY, severity := .LOW,
    description := "d", timestamp := 0, reporter := 1,
    verified := verified, resolved := resolved }

/-- The deployed oracle holding exactly one vulnerability record. -/
def stateWith (v : Vulnerability) : OracleState :=
  { sampleState with vulnerabilities := [v] }

/-- State after the deployer reports a CRITICAL vulnerability against
contract 7 on the fresh oracle. -/
def c2ReportState : OracleState :=
  match reportVulnerability sampleState 1 7 .REENTRANCY .CRITICAL "bug" 0 with
  | .ok (_, s1) => s1
  | .error _ => sampleState

/-- State after the deployer submits an audit report with one critical
finding against contract 8 on the fresh oracle. -/
def c2AuditState : OracleState :=
  match submitAuditReport sampleState 1 8 1 0 0 0 0 with
  | .ok s1 => s1
  | .error _ => sampleState

/-- `paused` setter used to state pause-independence. -/
def setPaused (s : OracleState) (b : Bool) : OracleState := { s with paused := b }

end SecurityOracle

namespace Analyzer

/-- First-occurrence deduplication of a key list, in stable order. -/
def dedupFirstKeys (ks : List String) : List String :=
  ks.foldl (fun acc k => if k ∈ acc then acc else acc ++ [k]) []

/-- The last finding of `vs` carrying dedup key `k`, if any. -/
def lastWithKey (vs : List Vulnerability) (k : String) : Option Vulnerability :=
  vs.reverse.find? (fun v => dedupKey v = k)

/-- The value the JS `Map` ends up holding at key `k`: the last value of
the entry list with that key. -/
def lastPair (l : List (String × Vulnerability)) (k : String) :
    Option Vulnerability :=
  (l.reverse.find? (fun p => p.1 = k)).map Prod.snd

/-- A Slither detector hit: `tx-origin` with description `D`. -/
def detC3 : SlitherDetector :=
  { check := "tx-origin", impact := "Low", description := "D",
    recommendation := some "r1", wiki_url := none, elements := [] }

/-- Slither stdout holding exactly `detC3`. -/
def slitherOutC3 : SlitherOutput :=
  { results := some { detectors := some [detC3] } }

/-- A Mythril issue normalizing to the same `(category, description)` key
as `detC3` (SWC 115 is `TX_ORIGIN`, description `D`) but with different
metadata (title `t2`). -/
def issueC3 : MythrilIssue :=
  { swcID := "115", title := "t2", description_head := none,
    description := "D", severity := "low", sourceMap := none }

/-- Mythril stdout holding exactly `issueC3`. -/
def mythrilOutC3 : MythrilOutput := { issues := some [issueC3] }

/-- A Slither detector whose impact is `Informational`. -/
def detC6 : SlitherDetector :=
  { check := "x", impact := "Informational", description := "I",
    recommendation := none, wiki_url := none, elements := [] }

/-- Slither stdout holding exactly `detC6`. -/
def slitherOutC6 : SlitherOutput :=
  { results := some { detectors := some [detC6] } }

/-- Mythril stdout with an empty issue list. -/
def mythrilOutEmpty : MythrilOutput := { issues := some [] }

/-- A config with `excludeInformational` set. -/
def cfgExcl : AnalyzerConfig := { excludeInformational := true }

end Analyzer

namespace SecurityOracle

/-- Claim C1: `isContractSafe` returns true exactly when the contract is
not blacklisted, its audit history is non-empty and the most recent report
is secure; in particular an empty history is never safe.  It is a view
returning a `Bool`, so it never fails. -/
theorem c1_isContractSafe_spec (s : OracleState) (a : Address) :
    (isContractSafe s a = true ↔
      a ∉ s.blacklistedContracts ∧
      ∃ r, (getAuditReports s a).getLast? = some r ∧ r.isSecure = true) ∧
    (getAuditReports s a = [] → isContractSafe s a = false) := by
  constructor
  · by_cases hb : a ∈ s.blacklistedContracts
    · simp [isContractSafe, hb]
    · cases hr : (getAuditReports s a).getLast? with
      | none => simp [isContractSafe, hb, hr]
      | some r => simp [isContractSafe, hb, hr]
  · intro he
    unfold isContractSafe
    rw [he]
    simp

/-- Witness for C1 at the fresh oracle: no history, hence unsafe. -/
theorem c1_witness : isContractSafe sampleState 5 = false :=
  (c1_isContractSafe_spec sampleState 5).2 rfl

/-- Setting a blacklist entry makes the address a member. -/
theorem mem_blacklistInsert_self (l : List Address) (a : Address) :
    a ∈ blacklistInsert l a := by
  unfold blacklistInsert
  split <;> simp_all

/-- Setting a blacklist entry keeps every member. -/
theorem mem_blacklistInsert_of_mem {l : List Address} {a : Address}
    (b : Address) (h : a ∈ l) : a ∈ blacklistInsert l b := by
  unfold blacklistInsert
  split <;> simp [h]

/-- A successful `reportVulnerability` only ever inserts into the
blacklist. -/
theorem report_preserves_blacklist {s s1 : OracleState} {caller addr : Address}
    {t : VulnerabilityType} {sev : Severity} {desc : String} {ts vulnId : Nat}
    (h : reportVulnerability s caller addr t sev desc ts = .ok (vulnId, s1))
    {a : Address} (ha : a ∈ s.blacklistedContracts) :
    a ∈ s1.blacklistedContracts := by
  simp only [reportVulnerability] at h
  repeat' split at h
  all_goals try exact Except.noConfusion h
  all_goals injection h with h1
  all_goals injection h1 with h1a h1b
  all_goals subst h1b
  · exact mem_blacklistInsert_of_mem _ ha
  · exact ha

/-- A successful `submitAuditReport` only ever inserts into the
blacklist. -/
theorem submit_preserves_blacklist {s s1 : OracleState} {caller addr : Address}
    {c h m l ts : Nat}
    (hok : submitAuditReport s caller addr c h m l ts = .ok s1)
    {a : Address} (ha : a ∈ s.blacklistedContracts) :
    a ∈ s1.blacklistedContracts := by
  simp only [submitAuditReport] at hok
  repeat' split at hok
  all_goals try exact Except.noConfusion hok
  all_goals injection hok with h1
  all_goals subst h1
  · exact mem_blacklistInsert_of_mem _ ha
  · exact ha

/-- A successful `verifyVulnerability` leaves the blacklist untouched. -/
theorem verify_blacklist_eq {s s1 : OracleState} {caller : Address}
    {vulnId : Nat} (h : verifyVulnerability s caller vulnId = .ok s1) :
    s1.blacklistedContracts = s.blacklistedContracts := by
  simp only [verifyVulnerability] at h
  repeat' split at h
  all_goals try exact Except.noConfusion h
  all_goals injection h with h1
  all_goals subst h1
  rfl

/-- A successful `resolveVulnerability` leaves the blacklist untouched. -/
theorem resolve_blacklist_eq {s s1 : OracleState} {caller : Address}
    {vulnId : Nat} (h : resolveVulnerability s caller vulnId = .ok s1) :
    s1.blacklistedContracts = s.blacklistedContracts := by
  simp only [resolveVulnerability] at h
  repeat' split at h
  all_goals try exact Except.noConfusion h
  all_goals injection h with h1
  all_goals subst h1
  rfl

/-- No transaction other than `whitelist` on that very address removes it
from the blacklist (reverted calls change nothing; every other success
either leaves the blacklist alone or inserts into it). -/
theorem blacklisted_preserved (op : Op) (s : OracleState) (a : Address)
    (hmem : a ∈ s.blacklistedContracts)
    (hop : ∀ c, op ≠ Op.whitelist c a) :
    a ∈ (applyOp op s).1.blacklistedContracts := by
  cases op with
  | report caller addr t sev desc ts =>
    cases hcall : reportVulnerability s caller addr t sev desc ts with
    | error e => simp [applyOp, hcall, hmem]
    | ok p =>
      obtain ⟨vulnId, s1⟩ := p
      simp only [applyOp, hcall]
      exact report_preserves_blacklist hcall hmem
  | verify caller vulnId =>
    cases hcall : verifyVulnerability s caller vulnId with
    | error e => simp [applyOp, hcall, hmem]
    | ok s1 =>
      simp only [applyOp, hcall]
      rw [verify_blacklist_eq hcall]
      exact hmem
  | resolve caller vulnId =>
    cases hcall : resolveVulnerability s caller vulnId with
    | error e => simp [applyOp, hcall, hmem]
    | ok s1 =>
      simp only [applyOp, hcall]
      rw [resolve_blacklist_eq hcall]
      exact hmem
  | submitAudit caller addr c h m l ts =>
    cases hcall : submitAuditReport s caller addr c h m l ts with
    | error e => simp [applyOp, hcall, hmem]
    | ok s1 =>
      simp only [applyOp, hcall]
      exact submit_preserves_blacklist hcall hmem
  | blacklist caller addr =>
    cases hcall : blacklistContract s caller addr with
    | error e => simp [applyOp, hcall, hmem]
    | ok s1 =>
      simp only [applyOp, hcall]
      simp only [blacklistContract] at hcall
      repeat' split at hcall
      all_goals try exact Except.noConfusion hcall
      injection hcall with h1
      subst h1
      exact mem_blacklistInsert_of_mem _ hmem
  | whitelist caller addr =>
    have haddr : addr ≠ a := by
      intro h
      exact hop caller (by rw [h])
    cases hcall : whitelistContract s caller addr with
    | error e => simp [applyOp, hcall, hmem]
    | ok s1 =>
      simp only [applyOp, hcall]
      simp only [whitelistContract] at hcall
      repeat' split at hcall
      all_goals try exact Except.noConfusion hcall
      injection hcall with h1
      subst h1
      simp only [List.mem_filter]
      refine ⟨hmem, ?_⟩
      simp [Ne.symm haddr]
  | pauseOp caller =>
    cases hcall : pause s caller with
    | error e => simp [applyOp, hcall, hmem]
    | ok s1 =>
      simp only [applyOp, hcall]
      simp only [pause] at hcall
      repeat' split at hcall
      all_goals try exact Except.noConfusion hcall
      injection hcall with h1
      subst h1
      exact hmem
  | unpauseOp caller =>
    cases hcall : unpause s caller with
    | error e => simp [applyOp, hcall, hmem]
    | ok s1 =>
      simp only [applyOp, hcall]
      simp only [unpause] at hcall
      repeat' split at hcall
      all_goals try exact Except.noConfusion hcall
      injection hcall with h1
      subst h1
      exact hmem

/-- Claim C2: a successful CRITICAL vulnerability report blacklists its
target; a successful audit report with a positive critical count
blacklists its target; and a blacklisted address stays blacklisted across
any sequence of transactions that contains no `whitelist` for it. -/
theorem c2_blacklist_triggers_and_persists :
    (∀ s caller addr t desc ts vulnId s1,
        reportVulnerability s caller addr t .CRITICAL desc ts = .ok (vulnId, s1) →
        addr ∈ s1.blacklistedContracts) ∧
    (∀ s caller addr c h m l ts s1,
        0 < c → submitAuditReport s caller addr c h m l ts = .ok s1 →
        addr ∈ s1.blacklistedContracts) ∧
    (∀ (ops : List Op) (s : OracleState) (addr : Address),
        addr ∈ s.blacklistedContracts →
        (∀ c, Op.whitelist c addr ∉ ops) →
        addr ∈ (runOps ops s).blacklistedContracts) := by
  refine ⟨?_, ?_, ?_⟩
  · intro s caller addr t desc ts vulnId s1 hok
    simp only [reportVulnerability] at hok
    repeat' split at hok
    all_goals try exact Except.noConfusion hok
    all_goals injection hok with h1
    all_goals injection h1 with h1a h1b
    all_goals subst h1b
    all_goals first
      | exact mem_blacklistInsert_self _ _
      | exact absurd trivial (by assumption)
  · intro s caller addr c h m l ts s1 hc hok
    simp only [submitAuditReport] at hok
    repeat' split at hok
    all_goals try exact Except.noConfusion hok
    all_goals injection hok with h1
    all_goals subst h1
    all_goals exact mem_blacklistInsert_self _ _
  · intro ops
    induction ops with
    | nil => intro s addr hmem _; exact hmem
    | cons op rest ih =>
      intro s addr hmem hnotin
      have h1 : ∀ c, op ≠ Op.whitelist c addr := by
        intro c h
        exact hnotin c (by rw [h]; exact List.mem_cons_self _ _)
      have h2 : ∀ c, Op.whitelist c addr ∉ rest := by
        intro c h
        exact hnotin c (List.mem_cons_of_mem _ h)
      have hstep := blacklisted_preserved op s addr hmem h1
      simpa [runOps] using ih ((applyOp op s).1) addr hstep h2

/-- Witness for C2: a CRITICAL report blacklists contract 7, an audit with
one critical finding blacklists contract 8, and a blacklisted contract 5
survives an unrelated transaction. -/
theorem c2_witness :
    7 ∈ c2ReportState.blacklistedContracts ∧
    8 ∈ c2AuditState.blacklistedContracts ∧
    5 ∈ (runOps [Op.pauseOp 1] blacklistedState).blacklistedContracts := by
  refine ⟨?_, ?_, ?_⟩
  · exact c2_blacklist_triggers_and_persists.1 sampleState 1 7 .REENTRANCY
      "bug" 0 0 c2ReportState (by rfl)
  · exact c2_blacklist_triggers_and_persists.2.1 sampleState 1 8 1 0 0 0 0
      c2AuditState (by decide) (by rfl)
  · exact c2_blacklist_triggers_and_persists.2.2 [Op.pauseOp 1]
      blacklistedState 5 (by decide) (by intro c h; simp at h)

/-- Claim C7: for an auditor caller, `verify` reverts with the
not-found error on an unknown id and with `AlreadyVerified` on a verified
record; `resolve` reverts with the not-found error on an unknown id, with
`NotVerified` on an unverified record and with `AlreadyResolved` on a
resolved one; every such revert leaves the whole state unchanged. -/
theorem c7_verify_resolve_failures (s : OracleState) (caller : Address)
    (vulnId : Nat) (hc : caller ∈ s.auditors) :
    (s.vulnerabilities[vulnId]? = none →
      applyOp (.verify caller vulnId) s = (s, some .InvalidVulnerabilityId) ∧
      applyOp (.resolve caller vulnId) s = (s, some .InvalidVulnerabilityId)) ∧
    (∀ v, s.vulnerabilities[vulnId]? = some v →
      (v.verified = true →
        applyOp (.verify caller vulnId) s = (s, some .AlreadyVerified)) ∧
      (v.verified = false →
        applyOp (.resolve caller vulnId) s = (s, some .NotVerified)) ∧
      (v.verified = true → v.resolved = true →
        applyOp (.resolve caller vulnId) s = (s, some .AlreadyResolved))) := by
  constructor
  · intro hnone
    constructor
    · simp [applyOp, verifyVulnerability, hc, hnone]
    · simp [applyOp, resolveVulnerability, hc, hnone]
  · intro v hv
    refine ⟨?_, ?_, ?_⟩
    · intro hverified
      simp [applyOp, verifyVulnerability, hc, hv, hverified]
    · intro hunverified
      simp [applyOp, resolveVulnerability, hc, hv, hunverified]
    · intro hverified hresolved
      simp [applyOp, resolveVulnerability, hc, hv, hverified, hresolved]

/-- Witness for C7 on one-record oracles: each failure case at a concrete
state, with the state returned unchanged. -/
theorem c7_witness :
    applyOp (.verify 1 0) sampleState =
      (sampleState, some .InvalidVulnerabilityId) ∧
    applyOp (.verify 1 0) (stateWith (vulnEx true false)) =
      (stateWith (vulnEx true false), some .AlreadyVerified) ∧
    applyOp (.resolve 1 0) (stateWith (vulnEx false false)) =
      (stateWith (vulnEx false false), some .NotVerified) ∧
    applyOp (.resolve 1 0) (stateWith (vulnEx true true)) =
      (stateWith (vulnEx true true), some .AlreadyResolved) := by
  refine ⟨?_, ?_, ?_, ?_⟩
  · exact ((c7_verify_resolve_failures sampleState 1 0 (by decide)).1 (by rfl)).1
  · exact ((c7_verify_resolve_failures (stateWith (vulnEx true false)) 1 0
      (by decide)).2 (vulnEx true false) (by rfl)).1 rfl
  · exact ((c7_verify_resolve_failures (stateWith (vulnEx false false)) 1 0
      (by decide)).2 (vulnEx false false) (by rfl)).2.1 rfl
  · exact ((c7_verify_resolve_failures (stateWith (vulnEx true true)) 1 0
      (by decide)).2 (vulnEx true true) (by rfl)).2.2 rfl rfl

/-- Claim C8: while paused, `report` and `submitAuditReport` revert with
`SystemPaused` leaving the state unchanged (for callers holding the
respective role — the role modifier runs first); `verify`, `resolve` and
the read-only queries compute exactly what they compute when not paused. -/
theorem c8_paused_behavior (s : OracleState) (caller : Address) :
    (s.paused = true → caller ∈ s.reporters →
      ∀ addr t sev desc ts,
        applyOp (.report caller addr t sev desc ts) s = (s, some .SystemPaused)) ∧
    (s.paused = true → caller ∈ s.auditors →
      ∀ addr c h m l ts,
        applyOp (.submitAudit caller addr c h m l ts) s = (s, some .SystemPaused)) ∧
    (∀ vulnId,
      verifyVulnerability (setPaused s true) caller vulnId =
        Except.map (fun t => setPaused t true)
          (verifyVulnerability (setPaused s false) caller vulnId)) ∧
    (∀ vulnId,
      resolveVulnerability (setPaused s true) caller vulnId =
        Except.map (fun t => setPaused t true)
          (resolveVulnerability (setPaused s false) caller vulnId)) ∧
    (∀ addr, isContractSafe (setPaused s true) addr =
      isContractSafe (setPaused s false) addr) ∧
    (∀ addr, getContractVulnerabilities (setPaused s true) addr =
      getContractVulnerabilities (setPaused s false) addr) ∧
    (∀ addr, getLatestAuditReport (setPaused s true) addr =
      getLatestAuditReport (setPaused s false) addr) := by
  refine ⟨?_, ?_, ?_, ?_, ?_, ?_, ?_⟩
  · intro hp hr addr t sev desc ts
    simp [applyOp, reportVulnerability, hp, hr]
  · intro hp ha addr c h m l ts
    simp [applyOp, submitAuditReport, hp, ha]
  · intro vulnId
    simp only [verifyVulnerability, setPaused]
    cases hv : s.vulnerabilities[vulnId]? with
    | none => split <;> simp [hv, Except.map]
    | some v =>
      split
      · simp [Except.map]
      · cases hb : v.verified <;> simp [hv, hb, Except.map]
  · intro vulnId
    simp only [resolveVulnerability, setPaused]
    cases hv : s.vulnerabilities[vulnId]? with
    | none => split <;> simp [hv, Except.map]
    | some v =>
      split
      · simp [Except.map]
      · cases hb : v.verified
        · simp [hv, hb, Except.map]
        · cases hr : v.resolved <;> simp [hv, hb, hr, Except.map]
  · intro addr
    rfl
  · intro addr
    rfl
  · intro addr
    rfl

/-- Witness for C8 at the paused fresh oracle. -/
theorem c8_witness :
    applyOp (.report 1 7 .REENTRANCY .LOW "d" 0) pausedState =
      (pausedState, some .SystemPaused) ∧
    applyOp (.submitAudit 1 7 0 0 0 0 0) pausedState =
      (pausedState, some .SystemPaused) ∧
    verifyVulnerability (setPaused sampleState true) 1 0 =
      Except.map (fun t => setPaused t true)
        (verifyVulnerability (setPaused sampleState false) 1 0) :=
  ⟨(c8_paused_behavior pausedState 1).1 rfl (by decide) 7 .REENTRANCY .LOW "d" 0,
   (c8_paused_behavior pausedState 1).2.1 rfl (by decide) 7 0 0 0 0 0,
   (c8_paused_behavior sampleState 1).2.2.1 0⟩

/-- Claim C10: `submitAuditReport` on the zero address reverts with the
invalid-address error and leaves the ledger unchanged, even for an
authorized auditor on an unpaused system. -/
theorem c10_submit_zero_address (s : OracleState) (caller : Address)
    (hc : caller ∈ s.auditors) (hp : s.paused = false) (c h m l ts : Nat) :
    applyOp (.submitAudit caller 0 c h m l ts) s =
      (s, some .InvalidContractAddress) := by
  simp [applyOp, submitAuditReport, hc, hp]

/-- Witness for C10 at the fresh oracle. -/
theorem c10_witness :
    applyOp (.submitAudit 1 0 1 2 3 4 0) sampleState =
      (sampleState, some .InvalidContractAddress) :=
  c10_submit_zero_address sampleState 1 (by decide) rfl 1 2 3 4 0

end SecurityOracle

namespace Analyzer

/-- Claim C5 counterexample: the Slither adapter, on a non-zero exit whose
captured stdout still parses (here a valid output with one detector),
fails instead of returning the parsed result — its `catch` rethrows
unconditionally. -/
theorem c5_counterexample :
    slitherAnalyze true (.failure (some (some slitherOutC3))) "a.sol" {} =
      .error "Slither analysis failed" := rfl

/-- Claim C5 (amended): only the Mythril adapter recovers from a non-zero
exit with parseable stdout, returning exactly the result parsed from that
output; the Slither adapter fails on every non-zero exit, parseable stdout
or not. -/
theorem c5_amended :
    (∀ (out : MythrilOutput) (contractPath : String) (config : AnalyzerConfig),
      mythrilAnalyze true (.failure (some (some out))) contractPath config =
        .ok (mythrilBuildResult out contractPath config)) ∧
    (∀ (stdout : Option (Option SlitherOutput)) (contractPath : String)
        (config : AnalyzerConfig),
      slitherAnalyze true (.failure stdout) contractPath config =
        .error "Slither analysis failed") :=
  ⟨fun _ _ _ => rfl, fun _ _ _ => rfl⟩

/-- Claim C6 counterexample: with `excludeInformational` set and a single
Informational finding, the returned findings list is empty while the
summary still counts one (total) and one (informational) — the summary is
computed over the unfiltered set. -/
theorem c6_counterexample :
    (slitherAnalyze true (.success (some slitherOutC6)) "a.sol" cfgExcl).toOption.map
        (fun r => (r.vulnerabilities.length, r.summary.total, r.summary.informational)) =
      some (0, 1, 1) := rfl

/-- Claim C6 (amended): with `excludeInformational` set, both adapters
return a findings list free of Informational findings, but the summary is
computed over the unfiltered parse output (before the filter), so its
counts include the dropped Informational findings. -/
theorem c6_amended (config : AnalyzerConfig)
    (hcfg : config.excludeInformational = true) :
    (∀ out contractPath r,
      slitherAnalyze true (.success (some out)) contractPath config = .ok r →
      (∀ v ∈ r.vulnerabilities, v.severity ≠ Severity.INFORMATIONAL) ∧
      r.summary = calculateSummary (parseSlitherOutput out)) ∧
    (∀ out contractPath r,
      mythrilAnalyze true (.success (some out)) contractPath config = .ok r →
      (∀ v ∈ r.vulnerabilities, v.severity ≠ Severity.INFORMATIONAL) ∧
      r.summary = calculateSummary (parseMythrilOutput out contractPath)) ∧
    (∀ out contractPath r,
      mythrilAnalyze true (.failure (some (some out))) contractPath config = .ok r →
      (∀ v ∈ r.vulnerabilities, v.severity ≠ Severity.INFORMATIONAL) ∧
      r.summary = calculateSummary (parseMythrilOutput out contractPath)) := by
  refine ⟨?_, ?_, ?_⟩
  all_goals
    intro out contractPath r h
  all_goals
    injection h with h1
  all_goals
    subst h1
  all_goals constructor
  · intro v hv
    simp [slitherBuildResult, hcfg] at hv
    exact hv.2
  · rfl
  · intro v hv
    simp [mythrilBuildResult, hcfg] at hv
    exact hv.2
  · rfl
  · intro v hv
    simp [mythrilBuildResult, hcfg] at hv
    exact hv.2
  · rfl

/-- Witness for C6 (amended) at the Informational-only Slither output. -/
theorem c6_witness :
    (∀ v ∈ (slitherBuildResult slitherOutC6 "a.sol" cfgExcl).vulnerabilities,
      v.severity ≠ Severity.INFORMATIONAL) ∧
    (slitherBuildResult slitherOutC6 "a.sol" cfgExcl).summary =
      calculateSummary (parseSlitherOutput slitherOutC6) :=
  (c6_amended cfgExcl rfl).1 slitherOutC6 "a.sol"
    (slitherBuildResult slitherOutC6 "a.sol" cfgExcl) rfl

/-- Claim C4: the aggregation fails, and fails with the
no-analyzers-available error, exactly when each engine is unavailable or
failing; one successful engine suffices for a combined success, and every
available-but-failed engine has its error recorded in the returned failure
log. -/
theorem c4_no_analyzers (contractPath : String) (sAvail : Bool)
    (sOutcome : ExecOutcome SlitherOutput) (mAvail : Bool)
    (mOutcome : ExecOutcome MythrilOutput) (config : AnalyzerConfig) :
    (getCombinedAnalysis contractPath sAvail sOutcome mAvail mOutcome config =
        .error noAnalyzersMsg ↔
      ((sAvail = false ∨
          ∃ e, slitherAnalyze sAvail sOutcome contractPath config = .error e) ∧
       (mAvail = false ∨
          ∃ e, mythrilAnalyze mAvail mOutcome contractPath config = .error e))) ∧
    (∀ r,
      ((sAvail = true ∧
          slitherAnalyze sAvail sOutcome contractPath config = .ok r) ∨
       (mAvail = true ∧
          mythrilAnalyze mAvail mOutcome contractPath config = .ok r)) →
      ∃ c failures,
        getCombinedAnalysis contractPath sAvail sOutcome mAvail mOutcome config =
          .ok (c, failures)) ∧
    (∀ res failures,
      getCombinedAnalysis contractPath sAvail sOutcome mAvail mOutcome config =
        .ok (res, failures) →
      (∀ e, sAvail = true →
        slitherAnalyze sAvail sOutcome contractPath config = .error e →
        e ∈ failures) ∧
      (∀ e, mAvail = true →
        mythrilAnalyze mAvail mOutcome contractPath config = .error e →
        e ∈ failures)) := by
  cases sAvail with
  | false =>
    cases mAvail with
    | false => simp [getCombinedAnalysis, analyzeContract]
    | true =>
      cases hm : mythrilAnalyze true mOutcome contractPath config with
      | ok r => simp [getCombinedAnalysis, analyzeContract, hm]
      | error e => simp [getCombinedAnalysis, analyzeContract, hm]
  | true =>
    cases hs : slitherAnalyze true sOutcome contractPath config with
    | ok rs =>
      cases mAvail with
      | false => simp [getCombinedAnalysis, analyzeContract, hs]
      | true =>
        cases hm : mythrilAnalyze true mOutcome contractPath config with
        | ok rm => simp [getCombinedAnalysis, analyzeContract, hs, hm]
        | error em => simp [getCombinedAnalysis, analyzeContract, hs, hm]
    | error es =>
      cases mAvail with
      | false => simp [getCombinedAnalysis, analyzeContract, hs]
      | true =>
        cases hm : mythrilAnalyze true mOutcome contractPath config with
        | ok rm => simp [getCombinedAnalysis, analyzeContract, hs, hm]
        | error em => simp [getCombinedAnalysis, analyzeContract, hs, hm]

/-- Witness for C4: both engines absent yields the no-analyzers error;
Slither failing while Mythril succeeds yields a combined success whose
failure log records the Slither error. -/
theorem c4_witness :
    getCombinedAnalysis "a.sol" false (.failure none) false (.failure none)
        {} = .error noAnalyzersMsg ∧
    (∃ c failures,
      getCombinedAnalysis "a.sol" true (.failure none) true
        (.success (some mythrilOutEmpty)) {} = .ok (c, failures)) ∧
    "Slither analysis failed" ∈
      (["Slither analysis failed"] : List String) := by
  refine ⟨?_, ?_, ?_⟩
  · exact (c4_no_analyzers "a.sol" false (.failure none) false (.failure none)
      {}).1.mpr ⟨Or.inl rfl, Or.inl rfl⟩
  · exact (c4_no_analyzers "a.sol" true (.failure none) true
      (.success (some mythrilOutEmpty)) {}).2.1
      (mythrilBuildResult mythrilOutEmpty "a.sol" {}) (Or.inr ⟨rfl, rfl⟩)
  · exact ((c4_no_analyzers "a.sol" true (.failure none) true
      (.success (some mythrilOutEmpty)) {}).2.2
      (combineResults "a.sol" [mythrilBuildResult mythrilOutEmpty "a.sol" {}])
      ["Slither analysis failed"] rfl).1 "Slither analysis failed" rfl rfl

/-- `find?` over an append scans the left list first. -/
theorem findq_append {α : Type} (p : α → Bool) (l₁ l₂ : List α) :
    (l₁ ++ l₂).find? p =
      match l₁.find? p with
      | some x => some x
      | none => l₂.find? p := by
  induction l₁ with
  | nil => simp
  | cons a l ih =>
    by_cases h : p a
    · simp [List.find?_cons_of_pos _ h]
    · simp [List.find?_cons_of_neg _ h, ih]

/-- `find?` over a mapped list is a mapped `find?`. -/
theorem findq_map {α β : Type} (f : α → β) (p : β → Bool) (l : List α) :
    (l.map f).find? p = (l.find? (fun a => p (f a))).map f := by
  induction l with
  | nil => rfl
  | cons a l ih =>
    by_cases h : p (f a)
    · simp [List.find?_cons_of_pos _ h, h]
    · simp [List.find?_cons_of_neg _ h, h, ih]

/-- The map value after appending one entry: the appended entry wins its
key, the rest is unchanged. -/
theorem lastPair_concat (l : List (String × Vulnerability))
    (e : String × Vulnerability) (k : String) :
    lastPair (l ++ [e]) k = if e.1 = k then some e.2 else lastPair l k := by
  unfold lastPair
  rw [List.reverse_append]
  by_cases h : e.1 = k
  · simp [h]
  · simp [h]

/-- The map value over an append: the right part wins when it has the
key. -/
theorem lastPair_append (l₁ l₂ : List (String × Vulnerability)) (k : String) :
    lastPair (l₁ ++ l₂) k =
      match lastPair l₂ k with
      | some v => some v
      | none => lastPair l₁ k := by
  unfold lastPair
  rw [List.reverse_append, findq_append]
  cases h : l₂.reverse.find? (fun p => p.1 = k) <;> simp [h]

/-- `mapInsert` keeps the key list when the key is present and appends it
otherwise. -/
theorem keys_mapInsert (acc : List (String × Vulnerability))
    (kv : String × Vulnerability) :
    (mapInsert acc kv).map Prod.fst =
      if kv.1 ∈ acc.map Prod.fst then acc.map Prod.fst
      else acc.map Prod.fst ++ [kv.1] := by
  unfold mapInsert
  by_cases hany : (acc.any (fun p => p.1 = kv.1)) = true
  · have h : kv.1 ∈ acc.map Prod.fst := by
      simp only [List.any_eq_true, decide_eq_true_eq] at hany
      obtain ⟨p, hp, he⟩ := hany
      exact List.mem_map.mpr ⟨p, hp, he⟩
    rw [if_pos hany, if_pos h, List.map_map]
    apply List.map_congr_left
    intro p hp
    by_cases hpk : p.1 = kv.1 <;> simp [hpk]
  · have h : kv.1 ∉ acc.map Prod.fst := by
      intro hmem
      apply hany
      simp only [List.any_eq_true, decide_eq_true_eq]
      obtain ⟨p, hp, he⟩ := List.mem_map.mp hmem
      exact ⟨p, hp, he⟩
    rw [if_neg hany, if_neg h, List.map_append]
    rfl

/-- `mapInsert` preserves key-list nodup. -/
theorem nodup_keys_mapInsert (acc : List (String × Vulnerability))
    (e : String × Vulnerability) (hn : (acc.map Prod.fst).Nodup) :
    ((mapInsert acc e).map Prod.fst).Nodup := by
  rw [keys_mapInsert]
  split
  · exact hn
  · next h =>
    refine List.Nodup.append hn (List.nodup_singleton _) ?_
    intro a ha hb
    simp only [List.mem_singleton] at hb
    subst hb
    exact h ha

/-- With nodup keys, filtering an association list down to one key yields
exactly its (unique) entry, whose value `lastPair` reads off. -/
theorem filter_key_of_nodup (acc : List (String × Vulnerability)) (k : String)
    (hn : (acc.map Prod.fst).Nodup) :
    acc.filter (fun p => p.1 = k) =
      ((lastPair acc k).map (fun v => (k, v))).toList := by
  induction acc using List.reverseRecOn with
  | nil => rfl
  | append_singleton l e ih =>
    obtain ⟨e1, e2⟩ := e
    rw [List.filter_append, lastPair_concat]
    rw [List.map_append] at hn
    rw [List.nodup_append] at hn
    obtain ⟨hn1, hn2, hdisj⟩ := hn
    by_cases h : e1 = k
    · have hk : k ∉ l.map Prod.fst := by
        intro hmem
        exact hdisj hmem (by simp [h])
      have hfl : l.filter (fun p => p.1 = k) = [] := by
        rw [List.filter_eq_nil_iff]
        intro p hp hpk
        simp only [decide_eq_true_eq] at hpk
        exact hk (List.mem_map.mpr ⟨p, hp, hpk⟩)
      have hfe : List.filter (fun p => p.1 = k) [(e1, e2)] = [(e1, e2)] := by
        simp [h]
      rw [hfl, hfe, if_pos h]
      simp [h]
    · have hfe : List.filter (fun p => p.1 = k) [(e1, e2)] = [] := by
        simp [h]
      rw [hfe, if_neg h, List.append_nil]
      exact ih hn1

/-- Overwriting the value at a key does not change `lastPair` at other
keys. -/
theorem lastPair_map_update_ne (acc : List (String × Vulnerability))
    (e : String × Vulnerability) (k : String) (hk : ¬ e.1 = k) :
    lastPair (acc.map (fun p => if p.1 = e.1 then (p.1, e.2) else p)) k =
      lastPair acc k := by
  induction acc using List.reverseRecOn with
  | nil => rfl
  | append_singleton l q ih =>
    rw [List.map_append]
    rw [show List.map (fun p => if p.1 = e.1 then (p.1, e.2) else p) [q] =
      [if q.1 = e.1 then (q.1, e.2) else q] from rfl]
    rw [lastPair_concat, lastPair_concat]
    by_cases hqe : q.1 = e.1
    · have hqk : ¬ q.1 = k := by rw [hqe]; exact hk
      simp [hqe, hqk, hk, ih]
    · simp [hqe, ih]

/-- Overwriting the value at a present key makes `lastPair` at that key
the new value. -/
theorem lastPair_map_update_self (acc : List (String × Vulnerability))
    (e : String × Vulnerability) (hmem : e.1 ∈ acc.map Prod.fst) :
    lastPair (acc.map (fun p => if p.1 = e.1 then (p.1, e.2) else p)) e.1 =
      some e.2 := by
  induction acc using List.reverseRecOn with
  | nil => simp at hmem
  | append_singleton l q ih =>
    rw [List.map_append]
    rw [show List.map (fun p => if p.1 = e.1 then (p.1, e.2) else p) [q] =
      [if q.1 = e.1 then (q.1, e.2) else q] from rfl]
    rw [lastPair_concat]
    by_cases hqe : q.1 = e.1
    · simp [hqe]
    · rw [List.map_append] at hmem
      rcases List.mem_append.mp hmem with hm1 | hm2
      · simp [hqe]
        exact ih hm1
      · simp at hm2
        exact absurd hm2.symm hqe

/-- A `mapInsert` step changes `lastPair` exactly like appending the
entry. -/
theorem lastPair_mapInsert (acc : List (String × Vulnerability))
    (e : String × Vulnerability) (k : String) :
    lastPair (mapInsert acc e) k = lastPair (acc ++ [e]) k := by
  unfold mapInsert
  by_cases hany : (acc.any (fun p => p.1 = e.1)) = true
  · have hmem : e.1 ∈ acc.map Prod.fst := by
      simp only [List.any_eq_true, decide_eq_true_eq] at hany
      obtain ⟨p, hp, he⟩ := hany
      exact List.mem_map.mpr ⟨p, hp, he⟩
    rw [if_pos hany, lastPair_concat]
    by_cases hk : e.1 = k
    · subst hk
      rw [if_pos rfl]
      exact lastPair_map_update_self acc e hmem
    · rw [if_neg hk]
      exact lastPair_map_update_ne acc e k hk
  · rw [if_neg hany]

/-- Filtering the folded JS map down to one key yields the entry holding
the last value seen for that key. -/
theorem foldl_mapInsert_filter (es : List (String × Vulnerability)) :
    ∀ (acc : List (String × Vulnerability)), (acc.map Prod.fst).Nodup →
    ∀ k, (es.foldl mapInsert acc).filter (fun p => p.1 = k) =
      ((lastPair (acc ++ es) k).map (fun v => (k, v))).toList := by
  induction es with
  | nil =>
    intro acc hn k
    rw [List.foldl_nil, List.append_nil]
    exact filter_key_of_nodup acc k hn
  | cons e es ih =>
    intro acc hn k
    rw [List.foldl_cons]
    rw [ih (mapInsert acc e) (nodup_keys_mapInsert acc e hn) k]
    have hstep : lastPair (mapInsert acc e ++ es) k =
        lastPair (acc ++ e :: es) k := by
      rw [show acc ++ e :: es = (acc ++ [e]) ++ es from by simp]
      rw [lastPair_append, lastPair_append, lastPair_mapInsert]
    rw [hstep]

/-- The key list of the folded JS map is the first-occurrence
deduplication of the entry keys. -/
theorem foldl_mapInsert_keys (es : List (String × Vulnerability)) :
    ∀ acc, (es.foldl mapInsert acc).map Prod.fst =
      es.foldl (fun ks kv => if kv.1 ∈ ks then ks else ks ++ [kv.1])
        (acc.map Prod.fst) := by
  induction es with
  | nil => intro acc; rfl
  | cons e es ih =>
    intro acc
    rw [List.foldl_cons, List.foldl_cons, ih, keys_mapInsert]

/-- Every pair stored by the fold keeps the invariant that its key is the
dedup key of its value. -/
theorem foldl_mapInsert_inv :
    ∀ (es acc : List (String × Vulnerability)),
    (∀ kv ∈ es, kv.1 = dedupKey kv.2) → (∀ p ∈ acc, p.1 = dedupKey p.2) →
    ∀ p ∈ es.foldl mapInsert acc, p.1 = dedupKey p.2 := by
  intro es
  induction es with
  | nil => intro acc _ hacc p hp; exact hacc p hp
  | cons e es ih =>
    intro acc hes hacc p hp
    rw [List.foldl_cons] at hp
    refine ih (mapInsert acc e)
      (fun kv hkv => hes kv (List.mem_cons_of_mem _ hkv)) ?_ p hp
    intro q hq
    unfold mapInsert at hq
    split at hq
    · obtain ⟨q0, hq0, hq0e⟩ := List.mem_map.mp hq
      by_cases hq0k : q0.1 = e.1
      · rw [if_pos hq0k] at hq0e
        subst hq0e
        have he := hes e (List.mem_cons_self _ _)
        simpa [hq0k] using he
      · rw [if_neg hq0k] at hq0e
        subst hq0e
        exact hacc q0 hq0
    · rcases List.mem_append.mp hq with hq1 | hq2
      · exact hacc q hq1
      · simp only [List.mem_singleton] at hq2
        subst hq2
        exact hes _ (List.mem_cons_self _ _)

/-- Full characterization of the JS-map deduplication on keyed findings:
the key list is the first-occurrence dedup of the input keys (so each key
appears exactly once, at its first position), and the finding kept for a
key is the LAST input finding with that key. -/
theorem jsMapValues_spec (vs : List Vulnerability) :
    ((jsMapValues (vs.map (fun v => (dedupKey v, v)))).map dedupKey =
      dedupFirstKeys (vs.map dedupKey)) ∧
    (∀ k, (jsMapValues (vs.map (fun v => (dedupKey v, v)))).filter
        (fun v => dedupKey v = k) = (lastWithKey vs k).toList) := by
  have hes : ∀ kv ∈ vs.map (fun v => (dedupKey v, v)), kv.1 = dedupKey kv.2 := by
    intro kv hkv
    obtain ⟨v, hv, he⟩ := List.mem_map.mp hkv
    rw [← he]
  have hinv : ∀ p ∈ (vs.map (fun v => (dedupKey v, v))).foldl mapInsert [],
      p.1 = dedupKey p.2 :=
    foldl_mapInsert_inv _ [] hes (by intro p hp; simp at hp)
  constructor
  · unfold jsMapValues
    rw [List.map_map]
    have hcongr :
        List.map (dedupKey ∘ Prod.snd)
          ((vs.map (fun v => (dedupKey v, v))).foldl mapInsert []) =
        List.map Prod.fst
          ((vs.map (fun v => (dedupKey v, v))).foldl mapInsert []) :=
      List.map_congr_left (fun p hp => (hinv p hp).symm)
    rw [hcongr, foldl_mapInsert_keys]
    unfold dedupFirstKeys
    simp only [List.foldl_map, List.map_nil]
  · intro k
    unfold jsMapValues
    rw [List.filter_map]
    have hpq : ∀ p ∈ (vs.map (fun v => (dedupKey v, v))).foldl mapInsert [],
        ((fun v => decide (dedupKey v = k)) ∘ Prod.snd) p =
          (fun p => decide (p.1 = k)) p := by
      intro p hp
      simp only [Function.comp_apply]
      rw [hinv p hp]
    rw [List.filter_congr hpq]
    rw [foldl_mapInsert_filter _ [] (by simp) k, List.nil_append]
    have hlp : lastPair (vs.map (fun v => (dedupKey v, v))) k = lastWithKey vs k := by
      unfold lastPair lastWithKey
      rw [← List.map_reverse, findq_map, Option.map_map]
      have hpred : (fun a => decide ((dedupKey a, a).1 = k)) =
          (fun v : Vulnerability => decide (dedupKey v = k)) := rfl
      rw [hpred]
      cases List.find? (fun v : Vulnerability => decide (dedupKey v = k))
        vs.reverse <;> rfl
    rw [hlp]
    cases lastWithKey vs k <;> rfl

/-- Claim C3 (amended): the combined analysis keeps exactly one finding
per `(category, description)` key, placed where the key FIRST occurs in
the engine-ordered concatenation, with distinct keys all kept in stable
order — but the finding retained for a duplicated key is the LAST
occurrence encountered, i.e. the later engine's metadata, not the
first. -/
theorem c3_amended (contractPath : String) (results : List AnalysisResult) :
    ((combineResults contractPath results).vulnerabilities.map dedupKey =
      dedupFirstKeys
        ((results.flatMap (fun r => r.vulnerabilities)).map dedupKey)) ∧
    (∀ k, (combineResults contractPath results).vulnerabilities.filter
        (fun v => dedupKey v = k) =
      (lastWithKey (results.flatMap (fun r => r.vulnerabilities)) k).toList) :=
  ⟨(jsMapValues_spec (results.flatMap (fun r => r.vulnerabilities))).1,
   fun k => (jsMapValues_spec (results.flatMap (fun r => r.vulnerabilities))).2 k⟩

/-- Claim C3 counterexample: a Slither finding (title `tx-origin`) and a
Mythril finding (title `t2`) share the key `TX_ORIGIN-D`; the concatenated
findings carry the Slither one first, yet the combined result keeps the
Mythril metadata — the claim says the first occurrence is retained. -/
theorem c3_counterexample :
    (analyzeContract "a.sol" true (.success (some slitherOutC3)) true
        (.success (some mythrilOutC3)) {}).toOption.map
      (fun p => (p.1.flatMap (fun r => r.vulnerabilities)).map
        (fun v => (dedupKey v, v.title))) =
      some [("TX_ORIGIN-D", "tx-origin"), ("TX_ORIGIN-D", "t2")] ∧
    (getCombinedAnalysis "a.sol" true (.success (some slitherOutC3)) true
        (.success (some mythrilOutC3)) {}).toOption.map
      (fun p => p.1.vulnerabilities.map (fun v => v.title)) =
      some ["t2"] ∧
    ("t2" : String) ≠ "tx-origin" :=
  ⟨rfl, rfl, by decide⟩

end Analyzer
